import Mathlib

/-!
Verification of the training-orchestration script `scripts/train.py` of
rl-starter-files.  The script is embedded shallowly: the parsed command-line
arguments become a structure, the observable side effects of the script
(seeding the RNG, creating environments, building the preprocessor / model /
algorithm, updating, logging, checkpointing, moving the model between
devices) become an event trace, and the training loop becomes a fuel-indexed
state-transition function.  The external libraries (gym, torch, torch_rl,
utils) are black boxes: the per-update frame counts they would return are a
parameter `f : Nat → Int`, and CUDA availability is a parameter
`cuda : Bool`.

The script's own error paths are modeled as well: with `procs <= 0` the
environment list is empty and line 82 (`envs[0].observation_space`) raises
`IndexError`, ending the run before the preprocessor, model or algorithm is
built; with `--log-interval 0` line 134 (`i % args.log_interval`) raises
`ZeroDivisionError` in the first loop iteration, after the update and the
counter increments but before the print and save blocks, ending the run.
(Line 165 evaluates `i % args.save_interval` only under the short-circuited
guard `args.save_interval > 0`, so no such crash exists there.)
-/

namespace TrainScript

/-- The two algorithm objects the script can construct (`torch_rl.A2CAlgo`
and `torch_rl.PPOAlgo`). -/
inductive AlgoKind where
  | a2c
  | ppo
deriving DecidableEq, Repr

/-- The device the actor-critic model currently resides on. -/
inductive Device where
  | cpu
  | cuda
deriving DecidableEq, Repr

/-- The result of the parsed command line (`args = parser.parse_args()`),
restricted to the fields the orchestration logic reads.  Python integers are
unbounded, hence `Int`. -/
structure Args where
  algo : String
  env : String
  model : Option String
  seed : Int
  procs : Int
  frames : Int
  log_interval : Int
  save_interval : Int
  no_tb : Bool
deriving DecidableEq, Repr

/-- Observable side effects of the script, in program order. -/
inductive Event where
  /-- `utils.seed(args.seed)` -/
  | seedRNG (seed : Int)
  /-- one pass of the env loop: `gym.make(args.env)` then `env.seed(s)` -/
  | makeEnv (name : String) (seed : Int)
  /-- `utils.ObssPreprocessor(model_name, envs[0].observation_space)` -/
  | buildPreprocessor
  /-- `utils.load_model(...)` -/
  | loadModel
  /-- construction of the A2C or PPO algorithm object -/
  | buildAlgo (k : AlgoKind)
  /-- `raise ValueError` -/
  | raiseValueError
  /-- `SummaryWriter(...)` construction -/
  | constructWriter
  /-- the j-th call of `algo.update_parameters()` (j counts from 1) -/
  | update (j : Nat)
  /-- the metrics log line printed after update i -/
  | printLog (i : Nat)
  /-- the tensorboard `writer.add_scalar` block after update i -/
  | writeScalars (i : Nat)
  /-- `obss_preprocessor.vocab.save()` after update i -/
  | saveVocab (i : Nat)
  /-- `utils.save_model(acmodel, model_name)` after update i -/
  | saveModel (i : Nat)
  /-- `acmodel.cpu()` inside the save block -/
  | moveToCPU
  /-- `acmodel.cuda()` inside the save block -/
  | moveToCUDA
  /-- the `IndexError` raised by `envs[0]` (line 82) when no environment
  was built -/
  | raiseIndexError
  /-- the `ZeroDivisionError` raised by `i % args.log_interval` (line 134)
  when `log_interval = 0` -/
  | raiseZeroDivisionError
deriving DecidableEq, Repr

/-- Lines 92-102: select the algorithm object from `args.algo`, raising
`ValueError` for any other string. -/
def selectAlgo (algo : String) : Except Unit AlgoKind :=
  if algo = "a2c" then .ok .a2c
  else if algo = "ppo" then .ok .ppo
  else .error ()

/-- Lines 69-73: the environment-construction loop
`for i in range(args.procs): env = gym.make(args.env); env.seed(args.seed + i)`.
Each loop pass is one `makeEnv` event carrying the env name and the seed. -/
def envEvents (a : Args) : List Event :=
  (List.range a.procs.toNat).map (fun (i : Nat) => Event.makeEnv a.env (a.seed + (i : Int)))

/-- Python `x or y` on an optional string: `None` and `""` are falsy. -/
def pyOr (m : Option String) (d : String) : String :=
  match m with
  | none => d
  | some s => if s = "" then d else s

/-- Line 78: `model_name = args.model or args.env + "_" + args.algo + "_" + suffix`. -/
def modelNameOf (model : Option String) (env algo sfx : String) : String :=
  pyOr model (env ++ "_" ++ algo ++ "_" ++ sfx)

/-- Line 106: `log_name = model_name + ("_" + suffix if args.model is not None else "")`. -/
def logNameOf (model : Option String) (env algo sfx : String) : String :=
  modelNameOf model env algo sfx ++ (if model.isSome then "_" ++ sfx else "")

/-- Lines 132-172, the body of one loop iteration after the update counter
has been incremented to `i`: the update itself; then line 134 evaluates
`i % args.log_interval`, which raises `ZeroDivisionError` when
`log_interval = 0` (aborting the iteration before any print or save);
otherwise the log block runs when `i % args.log_interval == 0` (with the
tensorboard writes guarded by `not args.no_tb`), then the save block runs
when `args.save_interval > 0 and i % args.save_interval == 0` (the `and`
short-circuits, so `i % args.save_interval` is never evaluated with a zero
divisor), in which the model is moved to the CPU before `save_model` and
back to CUDA after it whenever CUDA is available.  Python's `%` on ints is
floored modulo, `Int.fmod`. -/
def iterEvents (a : Args) (cuda : Bool) (i : Nat) : List Event :=
  [Event.update i] ++
  (if a.log_interval = 0 then [Event.raiseZeroDivisionError]
  else
    (if Int.fmod (i : Int) a.log_interval = 0 then
      [Event.printLog i] ++ (if a.no_tb then [] else [Event.writeScalars i])
    else []) ++
    (if 0 < a.save_interval ∧ Int.fmod (i : Int) a.save_interval = 0 then
      [Event.saveVocab i] ++ (if cuda then [Event.moveToCPU] else []) ++
      [Event.saveModel i] ++ (if cuda then [Event.moveToCUDA] else [])
    else []))

/-- The mutable state of the training loop: the update counter `i`, the
accumulated frame counter `num_frames`, and the trace of events emitted so
far. -/
structure LoopState where
  i : Nat
  numFrames : Int
  trace : List Event
deriving DecidableEq, Repr

/-- Lines 118-120: `num_frames = 0`, `i = 0`, nothing emitted yet. -/
def initLoopState : LoopState :=
  { i := 0, numFrames := 0, trace := [] }

/-- One pass of the loop body (lines 125-172): call `update_parameters()`
(the j-th call returns `f (j-1)` frames), add the returned `num_frames`,
increment `i`, and emit the iteration's events. -/
def loopStep (a : Args) (cuda : Bool) (f : Nat → Int) (s : LoopState) : LoopState :=
  { i := s.i + 1,
    numFrames := s.numFrames + f s.i,
    trace := s.trace ++ iterEvents a cuda (s.i + 1) }

/-- Line 122: `while num_frames < args.frames`, run the loop body; `fuel`
bounds the number of iterations so the definition is total.  When
`log_interval = 0` the body raises `ZeroDivisionError` at line 134, so the
run ends after that single (truncated) iteration. -/
def runLoop (a : Args) (cuda : Bool) (f : Nat → Int) : Nat → LoopState → LoopState
  | 0, s => s
  | fuel + 1, s =>
    if s.numFrames < a.frames then
      if a.log_interval = 0 then loopStep a cuda f s
      else runLoop a cuda f fuel (loopStep a cuda f s)
    else s

/-- Lines 65-86 in program order: seed the RNG, build the environments;
then line 82 reads `envs[0].observation_space`, which raises `IndexError`
when the environment list is empty (`procs <= 0`), ending the run before
the preprocessor or model is built; otherwise the observation preprocessor
is built and the model is built/loaded. -/
def preEvents (a : Args) : List Event :=
  Event.seedRNG a.seed :: envEvents a ++
    (if envEvents a = [] then [Event.raiseIndexError]
    else [Event.buildPreprocessor, Event.loadModel])

/-- Lines 109-111: the `SummaryWriter` is constructed unless `--no-tb`. -/
def writerEvents (a : Args) : List Event :=
  if a.no_tb then [] else [Event.constructWriter]

/-- Lines 92-172: after the model is built, the script either raises
`ValueError` (which ends it) or constructs the algorithm object, then the
writer, then enters the training loop. -/
def tailEvents (a : Args) (cuda : Bool) (f : Nat → Int) (fuel : Nat) : List Event :=
  match selectAlgo a.algo with
  | .error _ => [Event.raiseValueError]
  | .ok k =>
      Event.buildAlgo k :: (writerEvents a ++ (runLoop a cuda f fuel initLoopState).trace)

/-- The whole script's event trace (lines 65-172): when line 82's
`IndexError` ends the run, nothing after it executes. -/
def scriptTrace (a : Args) (cuda : Bool) (f : Nat → Int) (fuel : Nat) : List Event :=
  preEvents a ++ (if envEvents a = [] then [] else tailEvents a cuda f fuel)

/-- The device the model is on after lines 87-88 (`acmodel.cuda()` when
CUDA is available). -/
def initialDevice (cuda : Bool) : Device :=
  if cuda then .cuda else .cpu

/-- The effect of one event on the model's device. -/
def applyEvent (d : Device) (e : Event) : Device :=
  match e with
  | .moveToCPU => .cpu
  | .moveToCUDA => .cuda
  | _ => d

/-- The device the model is on after a list of events has run. -/
def deviceAfter (cuda : Bool) (l : List Event) : Device :=
  l.foldl applyEvent (initialDevice cuda)

/-- Recognizer for `update` events. -/
def isUpdate : Event → Bool
  | .update _ => true
  | _ => false

/-- Recognizer for `makeEnv` events. -/
def isMakeEnv : Event → Bool
  | .makeEnv _ _ => true
  | _ => false

/-- The position of an event in the script's pipeline, used to state that
the trace follows the program order
seed → envs → preprocessor → model → algorithm → writer → loop. -/
def phase : Event → Nat
  | .seedRNG _ => 0
  | .makeEnv _ _ => 1
  | .buildPreprocessor => 2
  | .raiseIndexError => 2
  | .loadModel => 3
  | .buildAlgo _ => 4
  | .raiseValueError => 4
  | .constructWriter => 5
  | _ => 6

/-! ### Helper lemmas -/

/-- Python's `x % n == 0` test is exactly divisibility, including `n = 0`
(`fmod a 0 = a`, and `0 ∣ a ↔ a = 0`). -/
theorem fmod_eq_zero_iff_dvd (a b : Int) : Int.fmod a b = 0 ↔ b ∣ a := by
  constructor
  · intro h
    have := Int.fmod_add_fdiv a b
    rw [h, zero_add] at this
    exact ⟨a.fdiv b, this.symm⟩
  · rintro ⟨c, rfl⟩
    exact Int.mul_fmod_right b c

/-- With at least one process the environment list is nonempty, so line 82
does not raise `IndexError`. -/
theorem envEvents_ne_nil (a : Args) (h : 1 ≤ a.procs) : envEvents a ≠ [] := by
  intro hnil
  have hlen : (envEvents a).length = a.procs.toNat := by
    rw [envEvents, List.length_map, List.length_range]
  rw [hnil] at hlen
  simp only [List.length_nil] at hlen
  omega

/-- Membership in one iteration's event block, unfolded. -/
theorem mem_iterEvents_iff (a : Args) (cuda : Bool) (i : Nat) (e : Event) :
    e ∈ iterEvents a cuda i ↔
      e = Event.update i ∨
      (a.log_interval = 0 ∧ e = Event.raiseZeroDivisionError) ∨
      (a.log_interval ≠ 0 ∧ Int.fmod (i : Int) a.log_interval = 0 ∧
        (e = Event.printLog i ∨ (a.no_tb = false ∧ e = Event.writeScalars i))) ∨
      (a.log_interval ≠ 0 ∧
        (0 < a.save_interval ∧ Int.fmod (i : Int) a.save_interval = 0) ∧
        (e = Event.saveVocab i ∨ e = Event.saveModel i ∨
          (cuda = true ∧ (e = Event.moveToCPU ∨ e = Event.moveToCUDA)))) := by
  simp only [iterEvents, List.mem_append]
  split_ifs with h1 h2 h3 h4 h5 h6 h7 <;>
    simp_all <;> tauto

/-- Every event the loop can emit has pipeline phase 6. -/
theorem phase_of_mem_iterEvents (a : Args) (cuda : Bool) (i : Nat) (e : Event)
    (h : e ∈ iterEvents a cuda i) : phase e = 6 := by
  rw [mem_iterEvents_iff] at h
  rcases h with h | ⟨-, h⟩ | ⟨-, -, h | ⟨-, h⟩⟩ | ⟨-, -, h | h | ⟨-, h | h⟩⟩ <;>
    subst h <;> rfl

/-- Every event in the loop's trace was either already there or comes from
some iteration's block. -/
theorem mem_runLoop_trace (a : Args) (cuda : Bool) (f : Nat → Int) :
    ∀ (fuel : Nat) (s : LoopState) (e : Event),
      e ∈ (runLoop a cuda f fuel s).trace →
        e ∈ s.trace ∨ ∃ i, e ∈ iterEvents a cuda i := by
  intro fuel
  induction fuel with
  | zero => intro s e h; exact Or.inl h
  | succ n ih =>
    intro s e h
    rw [runLoop] at h
    split at h
    · split at h
      · rcases List.mem_append.mp h with h'' | h''
        · exact Or.inl h''
        · exact Or.inr ⟨s.i + 1, h''⟩
      · rcases ih _ _ h with h' | h'
        · rcases List.mem_append.mp h' with h'' | h''
          · exact Or.inl h''
          · exact Or.inr ⟨s.i + 1, h''⟩
        · exact Or.inr h'
    · exact Or.inl h

/-! ### Claims -/

/-- C1 counterexample: with `procs = 0` the script dies with `IndexError`
at `envs[0]` (line 82) before the algo selection of lines 92-102 is ever
reached: with `algo = "foo"` no `ValueError` is raised, and with
`algo = "a2c"` no A2C object is constructed. -/
theorem claim_C1_counterexample :
    ((Args.mk "foo" "E" none 1 0 0 1 0 true).algo ≠ "a2c" ∧
      (Args.mk "foo" "E" none 1 0 0 1 0 true).algo ≠ "ppo" ∧
      Event.raiseValueError ∉
        scriptTrace (Args.mk "foo" "E" none 1 0 0 1 0 true) false (fun _ => 1) 0 ∧
      Event.raiseIndexError ∈
        scriptTrace (Args.mk "foo" "E" none 1 0 0 1 0 true) false (fun _ => 1) 0) ∧
    ((Args.mk "a2c" "E" none 1 0 0 1 0 true).algo = "a2c" ∧
      Event.buildAlgo .a2c ∉
        scriptTrace (Args.mk "a2c" "E" none 1 0 0 1 0 true) false (fun _ => 1) 0) := by
  decide

/-- C1 (amended): for every parsed argument set with `procs ≥ 1` (so that
line 82's `envs[0]` does not raise `IndexError` first), the script
constructs the A2C algorithm object when `args.algo = "a2c"`, the PPO
object when `args.algo = "ppo"`, and raises `ValueError` before any
training update runs for every other value of `args.algo`. -/
theorem claim_C1 (a : Args) (cuda : Bool) (f : Nat → Int) (fuel : Nat)
    (hp : 1 ≤ a.procs) :
    (a.algo = "a2c" →
      selectAlgo a.algo = .ok .a2c ∧
      Event.buildAlgo .a2c ∈ scriptTrace a cuda f fuel) ∧
    (a.algo = "ppo" →
      selectAlgo a.algo = .ok .ppo ∧
      Event.buildAlgo .ppo ∈ scriptTrace a cuda f fuel) ∧
    (a.algo ≠ "a2c" → a.algo ≠ "ppo" →
      selectAlgo a.algo = .error () ∧
      Event.raiseValueError ∈ scriptTrace a cuda f fuel ∧
      ∀ j, Event.update j ∉ scriptTrace a cuda f fuel) := by
  have hne := envEvents_ne_nil a hp
  refine ⟨fun h => ?_, fun h => ?_, fun h1 h2 => ?_⟩
  · simp [scriptTrace, tailEvents, selectAlgo, h, hne]
  · simp [scriptTrace, tailEvents, selectAlgo, h, hne]
  · refine ⟨by simp [selectAlgo, h1, h2], ?_, ?_⟩
    · simp [scriptTrace, tailEvents, selectAlgo, h1, h2, hne]
    · intro j
      simp [scriptTrace, tailEvents, selectAlgo, preEvents, envEvents, h1, h2, hne]
      split <;> simp

/-- C1 witness: a concrete argument set with two processes and
`algo = "foo"` raises `ValueError` and never updates. -/
theorem claim_C1_witness :
    1 ≤ (Args.mk "foo" "E" none 1 2 0 1 0 true).procs ∧
    (Args.mk "foo" "E" none 1 2 0 1 0 true).algo ≠ "a2c" ∧
    (Args.mk "foo" "E" none 1 2 0 1 0 true).algo ≠ "ppo" ∧
    (selectAlgo (Args.mk "foo" "E" none 1 2 0 1 0 true).algo = .error () ∧
      Event.raiseValueError ∈
        scriptTrace (Args.mk "foo" "E" none 1 2 0 1 0 true) false (fun _ => 1) 0 ∧
      ∀ j, Event.update j ∉
        scriptTrace (Args.mk "foo" "E" none 1 2 0 1 0 true) false (fun _ => 1) 0) :=
  ⟨by decide, by decide, by decide,
    (claim_C1 (Args.mk "foo" "E" none 1 2 0 1 0 true) false (fun _ => 1) 0
      (by decide)).2.2 (by decide) (by decide)⟩

/-- C2: with `procs ≥ 1` the script creates exactly `args.procs` environment
instances, each from the environment name `args.env`, and the i-th instance
(0-indexed, in construction order) is seeded with `args.seed + i`. -/
theorem claim_C2 (a : Args) (cuda : Bool) (f : Nat → Int) (fuel : Nat)
    (h : 1 ≤ a.procs) :
    ((envEvents a).length : Int) = a.procs ∧
    (∀ (i : Nat) (hi : i < (envEvents a).length),
      (envEvents a).get ⟨i, hi⟩ = Event.makeEnv a.env (a.seed + (i : Int))) ∧
    (((scriptTrace a cuda f fuel).countP isMakeEnv : Int) = a.procs) := by
  have hnn : (0 : Int) ≤ a.procs := le_trans zero_le_one h
  have hlen : (envEvents a).length = a.procs.toNat := by
    rw [envEvents, List.length_map, List.length_range]
  refine ⟨?_, ?_, ?_⟩
  · rw [hlen, Int.toNat_of_nonneg hnn]
  · intro i hi
    simp only [envEvents, List.get_eq_getElem, List.getElem_map, List.getElem_range]
  · have hloop : ∀ e ∈ (runLoop a cuda f fuel initLoopState).trace, ¬ isMakeEnv e := by
      intro e he
      rcases mem_runLoop_trace a cuda f fuel initLoopState e he with h' | ⟨i, h'⟩
      · simp [initLoopState] at h'
      · have := phase_of_mem_iterEvents a cuda i e h'
        cases e <;> simp_all [phase, isMakeEnv]
    have hcount0 : (runLoop a cuda f fuel initLoopState).trace.countP isMakeEnv = 0 :=
      List.countP_eq_zero.mpr (by intro e he; exact by simpa using hloop e he)
    have henv : (envEvents a).countP isMakeEnv = (envEvents a).length :=
      List.countP_eq_length.mpr (by intro e he; simp [envEvents] at he; obtain ⟨i, -, rfl⟩ := he; rfl)
    have hne := envEvents_ne_nil a h
    rw [scriptTrace, tailEvents]
    cases hsel : selectAlgo a.algo with
    | error u =>
        simp [preEvents, List.countP_append, List.countP_cons, henv, hlen,
          isMakeEnv, hne, Int.toNat_of_nonneg hnn]
    | ok k =>
        simp [preEvents, writerEvents, List.countP_append, List.countP_cons, henv, hlen,
          hcount0, isMakeEnv, hne, Int.toNat_of_nonneg hnn]

/-- C2 witness at a concrete argument set with three processes. -/
theorem claim_C2_witness :
    1 ≤ (Args.mk "a2c" "E" none 5 3 0 1 0 true).procs ∧
    (((envEvents (Args.mk "a2c" "E" none 5 3 0 1 0 true)).length : Int) =
        (Args.mk "a2c" "E" none 5 3 0 1 0 true).procs ∧
      (∀ (i : Nat) (hi : i < (envEvents (Args.mk "a2c" "E" none 5 3 0 1 0 true)).length),
        (envEvents (Args.mk "a2c" "E" none 5 3 0 1 0 true)).get ⟨i, hi⟩ =
          Event.makeEnv "E" ((5 : Int) + (i : Int))) ∧
      (((scriptTrace (Args.mk "a2c" "E" none 5 3 0 1 0 true) false (fun _ => 1) 0).countP
            isMakeEnv : Int) =
        (Args.mk "a2c" "E" none 5 3 0 1 0 true).procs)) :=
  ⟨by decide, claim_C2 (Args.mk "a2c" "E" none 5 3 0 1 0 true) false (fun _ => 1) 0 (by decide)⟩

/-- Every event of the pre-loop sequence sits in pipeline phase at most 3. -/
theorem phase_of_mem_preEvents (a : Args) (e : Event) (h : e ∈ preEvents a) :
    phase e ≤ 3 := by
  rw [preEvents] at h
  rcases List.mem_cons.mp h with rfl | h
  · exact Nat.zero_le 3
  · rcases List.mem_append.mp h with h | h
    · simp only [envEvents, List.mem_map] at h
      obtain ⟨i, -, rfl⟩ := h
      simp [phase]
    · split at h
      · rcases List.mem_singleton.mp h with rfl
        simp [phase]
      · rcases List.mem_cons.mp h with rfl | h
        · simp [phase]
        · rcases List.mem_cons.mp h with rfl | h
          · exact Nat.le_refl 3
          · cases h

/-- Decomposition of membership in the script trace. -/
theorem mem_scriptTrace (a : Args) (cuda : Bool) (f : Nat → Int) (fuel : Nat)
    (e : Event) (h : e ∈ scriptTrace a cuda f fuel) :
    e ∈ preEvents a ∨ e = Event.raiseValueError ∨ (∃ k, e = Event.buildAlgo k) ∨
    (a.no_tb = false ∧ e = Event.constructWriter) ∨ ∃ i, e ∈ iterEvents a cuda i := by
  rw [scriptTrace] at h
  rcases List.mem_append.mp h with h | h
  · exact Or.inl h
  · rcases Decidable.em (envEvents a = []) with hemp | hemp
    · rw [if_pos hemp] at h
      cases h
    · rw [if_neg hemp, tailEvents] at h
      cases hsel : selectAlgo a.algo with
      | error u =>
          rw [hsel] at h
          simp only [List.mem_singleton] at h
          exact Or.inr (Or.inl h)
      | ok k =>
          rw [hsel] at h
          rcases List.mem_cons.mp h with rfl | h
          · exact Or.inr (Or.inr (Or.inl ⟨k, rfl⟩))
          · rcases List.mem_append.mp h with h | h
            · rw [writerEvents] at h
              rcases hn : a.no_tb with _ | _ <;> rw [hn] at h
              · simp only [if_neg Bool.false_ne_true] at h
                simp only [List.mem_singleton] at h
                exact Or.inr (Or.inr (Or.inr (Or.inl ⟨rfl, h⟩)))
              · simp at h
            · rcases mem_runLoop_trace a cuda f fuel initLoopState e h with h' | h'
              · simp [initLoopState] at h'
              · exact Or.inr (Or.inr (Or.inr (Or.inr h')))

/-- C3 counterexample: with `--log-interval 0` and `--save-interval 1`,
update 1 satisfies `save_interval > 0` and `save_interval ∣ 1`, yet the
iteration raises `ZeroDivisionError` at line 134 before the save block, so
no checkpoint is taken. -/
theorem claim_C3_counterexample :
    (0 < (Args.mk "a2c" "E" none 1 1 0 0 1 true).save_interval ∧
      (Args.mk "a2c" "E" none 1 1 0 0 1 true).save_interval ∣ ((1 : Nat) : Int)) ∧
    Event.saveVocab 1 ∉ iterEvents (Args.mk "a2c" "E" none 1 1 0 0 1 true) false 1 ∧
    Event.saveModel 1 ∉ iterEvents (Args.mk "a2c" "E" none 1 1 0 0 1 true) false 1 ∧
    Event.raiseZeroDivisionError ∈
      iterEvents (Args.mk "a2c" "E" none 1 1 0 0 1 true) false 1 :=
  ⟨⟨by norm_num, one_dvd _⟩, by decide, by decide, by decide⟩

/-- C3 (amended): the loop body checkpoints state (saves the preprocessor
vocabulary and the model) after update `i` exactly when `log_interval ≠ 0`
(so line 134's modulo does not raise `ZeroDivisionError` first),
`save_interval > 0` and `save_interval` divides `i`; with the default
`save_interval = 0` no checkpoint is ever taken anywhere in the script's
run. -/
theorem claim_C3 (a : Args) (cuda : Bool) (f : Nat → Int) (fuel : Nat) (i : Nat) :
    ((Event.saveVocab i ∈ iterEvents a cuda i ∧ Event.saveModel i ∈ iterEvents a cuda i) ↔
      (a.log_interval ≠ 0 ∧ 0 < a.save_interval ∧ a.save_interval ∣ (i : Int))) ∧
    (a.save_interval = 0 →
      ∀ j, Event.saveVocab j ∉ scriptTrace a cuda f fuel ∧
        Event.saveModel j ∉ scriptTrace a cuda f fuel) := by
  constructor
  · simp only [mem_iterEvents_iff, fmod_eq_zero_iff_dvd]
    simp
  · intro h0 j
    constructor <;> intro hmem <;>
      rcases mem_scriptTrace a cuda f fuel _ hmem with hp | he | ⟨k, he⟩ | ⟨-, he⟩ | ⟨m, hit⟩ <;>
        first
          | (have hph := phase_of_mem_preEvents a _ hp; simp [phase] at hph)
          | cases he
          | (rw [mem_iterEvents_iff] at hit
             rcases hit with hit | ⟨-, hit⟩ | ⟨-, -, hit | ⟨-, hit⟩⟩ | ⟨-, ⟨hpos, -⟩, -⟩ <;>
               first | cases hit | omega)

/-- C3 witness: with `log_interval = 1` and `save_interval = 2` the second
update checkpoints; with `save_interval = 0` a concrete run never saves. -/
theorem claim_C3_witness :
    ((Event.saveVocab 2 ∈ iterEvents (Args.mk "a2c" "E" none 1 1 0 1 2 true) false 2 ∧
      Event.saveModel 2 ∈ iterEvents (Args.mk "a2c" "E" none 1 1 0 1 2 true) false 2) ↔
      ((Args.mk "a2c" "E" none 1 1 0 1 2 true).log_interval ≠ 0 ∧
        0 < (2 : Int) ∧ (2 : Int) ∣ ((2 : Nat) : Int))) ∧
    ((2 : Int) = 0 →
      ∀ j, Event.saveVocab j ∉
          scriptTrace (Args.mk "a2c" "E" none 1 1 0 1 2 true) false (fun _ => 1) 0 ∧
        Event.saveModel j ∉
          scriptTrace (Args.mk "a2c" "E" none 1 1 0 1 2 true) false (fun _ => 1) 0) :=
  claim_C3 (Args.mk "a2c" "E" none 1 1 0 1 2 true) false (fun _ => 1) 0 2

/-- C4: for update counters `i ≥ 1` (the loop counts updates from 1), the
loop body prints the metrics log line after update `i` exactly when
`log_interval` divides `i` — in particular not when `log_interval = 0`,
where line 134 raises `ZeroDivisionError` instead of printing and indeed
`0 ∤ i` — and a `printLog` event carries exactly the index of its own
iteration. -/
theorem claim_C4 (a : Args) (cuda : Bool) (i j : Nat) (hi : 1 ≤ i) :
    (Event.printLog i ∈ iterEvents a cuda i ↔ a.log_interval ∣ (i : Int)) ∧
    (Event.printLog i ∈ iterEvents a cuda j → i = j) := by
  constructor
  · rcases Decidable.em (a.log_interval = 0) with h0 | h0
    · rw [mem_iterEvents_iff]
      simp [h0, zero_dvd_iff]
      omega
    · rw [mem_iterEvents_iff]
      simp [h0, fmod_eq_zero_iff_dvd]
  · rw [mem_iterEvents_iff]
    rintro (h | ⟨-, h⟩ | ⟨-, -, h | ⟨-, h⟩⟩ | ⟨-, -, h | h | ⟨-, h | h⟩⟩) <;>
      first | (cases h; rfl) | cases h

/-- C4 witness: with `log_interval = 1` the first update prints. -/
theorem claim_C4_witness :
    1 ≤ 1 ∧
    ((Event.printLog 1 ∈ iterEvents (Args.mk "a2c" "E" none 1 1 0 1 0 true) false 1 ↔
        (Args.mk "a2c" "E" none 1 1 0 1 0 true).log_interval ∣ ((1 : Nat) : Int)) ∧
      (Event.printLog 1 ∈ iterEvents (Args.mk "a2c" "E" none 1 1 0 1 0 true) false 1 →
        1 = 1)) :=
  ⟨by decide, claim_C4 (Args.mk "a2c" "E" none 1 1 0 1 0 true) false 1 1 (by decide)⟩

/-- C8 counterexample: with `--model ""` (given but empty), the log name is
not `args.model + "_" + suffix`: Python's `or` falls back to the default
model name, so the timestamp suffix ends up in the log name twice. -/
theorem claim_C8_counterexample :
    logNameOf (some "") "E" "a2c" "S" ≠ "" ++ "_" ++ "S" ∧
    logNameOf (some "") "E" "a2c" "S" = "E_a2c_S_S" :=
  ⟨by decide, by decide⟩

/-- C8 (amended): if `--model` is absent, `log_name = env + "_" + algo + "_"
+ suffix` with the suffix once; if `--model` is a non-empty string `m`,
`log_name = m + "_" + suffix` with the suffix once; but if `--model` is the
empty string, the model name falls back to the default (which already ends
in the suffix) and the suffix is appended again, so it appears twice. -/
theorem claim_C8_amended (env algo sfx m : String) (hm : m ≠ "") :
    logNameOf none env algo sfx = env ++ "_" ++ algo ++ "_" ++ sfx ∧
    logNameOf (some m) env algo sfx = m ++ "_" ++ sfx ∧
    logNameOf (some "") env algo sfx =
      env ++ "_" ++ algo ++ "_" ++ sfx ++ "_" ++ sfx := by
  refine ⟨?_, ?_, ?_⟩ <;> simp [logNameOf, modelNameOf, pyOr, hm, String.append_assoc]

/-- C8 witness at concrete names. -/
theorem claim_C8_witness :
    ("M" : String) ≠ "" ∧
    (logNameOf none "E" "a2c" "S" = "E" ++ "_" ++ "a2c" ++ "_" ++ "S" ∧
      logNameOf (some "M") "E" "a2c" "S" = "M" ++ "_" ++ "S" ∧
      logNameOf (some "") "E" "a2c" "S" =
        "E" ++ "_" ++ "a2c" ++ "_" ++ "S" ++ "_" ++ "S") :=
  ⟨by decide, claim_C8_amended "E" "a2c" "S" "M" (by decide)⟩

/-- Folding over events that never move the model leaves the device alone. -/
theorem foldl_applyEvent_id :
    ∀ l : List Event, (∀ e ∈ l, ∀ d : Device, applyEvent d e = d) →
      ∀ d : Device, l.foldl applyEvent d = d := by
  intro l
  induction l with
  | nil => intro _ d; rfl
  | cons x xs ih =>
    intro h d
    rw [List.foldl_cons, h x (List.mem_cons_self x xs)]
    exact ih (fun e he d' => h e (List.mem_cons_of_mem x he) d') d

/-- One loop iteration returns the model to the device it started the script
on: the save block moves it to the CPU and back to CUDA only when CUDA is
available. -/
theorem device_iterEvents (a : Args) (cuda : Bool) (i : Nat) :
    (iterEvents a cuda i).foldl applyEvent (initialDevice cuda) = initialDevice cuda := by
  cases cuda <;>
    simp only [iterEvents, initialDevice, List.foldl_append] <;>
    split_ifs <;>
    simp [applyEvent]

/-- The loop's emitted trace keeps the device invariant. -/
theorem device_runLoop (a : Args) (cuda : Bool) (f : Nat → Int) :
    ∀ (fuel : Nat) (s : LoopState),
      s.trace.foldl applyEvent (initialDevice cuda) = initialDevice cuda →
      (runLoop a cuda f fuel s).trace.foldl applyEvent (initialDevice cuda) =
        initialDevice cuda := by
  intro fuel
  induction fuel with
  | zero => intro s h; simpa [runLoop] using h
  | succ n ih =>
    intro s h
    rw [runLoop]
    split
    · split
      · simp only [loopStep, List.foldl_append, h]
        exact device_iterEvents a cuda (s.i + 1)
      · apply ih
        simp only [loopStep, List.foldl_append, h]
        exact device_iterEvents a cuda (s.i + 1)
    · exact h

/-- No pre-loop event moves the model between devices. -/
theorem applyEvent_preEvents (a : Args) (e : Event) (h : e ∈ preEvents a)
    (d : Device) : applyEvent d e = d := by
  rw [preEvents] at h
  rcases List.mem_cons.mp h with rfl | h
  · rfl
  · rcases List.mem_append.mp h with h | h
    · simp only [envEvents, List.mem_map] at h
      obtain ⟨i, -, rfl⟩ := h
      rfl
    · split at h
      · rcases List.mem_singleton.mp h with rfl
        rfl
      · rcases List.mem_cons.mp h with rfl | h
        · rfl
        · rcases List.mem_cons.mp h with rfl | h
          · rfl
          · cases h

/-- C9: the periodic checkpoint save leaves the model's device unchanged —
after the whole script trace, and equally after every completed loop
iteration, the model resides on the device chosen at start-up (CUDA when
available, CPU otherwise). -/
theorem claim_C9 (a : Args) (cuda : Bool) (f : Nat → Int) (fuel k : Nat) :
    deviceAfter cuda (scriptTrace a cuda f fuel) = initialDevice cuda ∧
    deviceAfter cuda ((loopStep a cuda f)^[k] initLoopState).trace =
      initialDevice cuda := by
  constructor
  · rw [deviceAfter, scriptTrace, List.foldl_append,
      foldl_applyEvent_id (preEvents a) (applyEvent_preEvents a) (initialDevice cuda)]
    split
    · rfl
    rw [tailEvents]
    cases hsel : selectAlgo a.algo with
    | error u => rfl
    | ok kk =>
        rw [List.foldl_cons]
        have hba : applyEvent (initialDevice cuda) (Event.buildAlgo kk) =
            initialDevice cuda := rfl
        rw [hba, List.foldl_append]
        have hw : (writerEvents a).foldl applyEvent (initialDevice cuda) =
            initialDevice cuda := by
          rw [writerEvents]; split <;> rfl
        rw [hw]
        exact device_runLoop a cuda f fuel initLoopState rfl
  · induction k with
    | zero => rfl
    | succ n ih =>
      rw [Function.iterate_succ_apply']
      rw [deviceAfter] at ih ⊢
      simp only [loopStep, List.foldl_append, ih]
      exact device_iterEvents a cuda _

/-- C10: with `--no-tb` no tensorboard writer is constructed and no scalars
are ever written anywhere in the run; without it, the loop body writes the
tensorboard scalars after update `i` (for update counters `i ≥ 1`, as the
loop counts updates from 1) exactly when the print-log condition
`i % log_interval == 0` holds — in particular never when `log_interval = 0`,
where line 134 raises `ZeroDivisionError` before the writes. -/
theorem claim_C10 (a : Args) (cuda : Bool) (f : Nat → Int) (fuel : Nat) (i : Nat) :
    (a.no_tb = true →
      Event.constructWriter ∉ scriptTrace a cuda f fuel ∧
      ∀ j, Event.writeScalars j ∉ scriptTrace a cuda f fuel) ∧
    (a.no_tb = false → 1 ≤ i →
      (Event.writeScalars i ∈ iterEvents a cuda i ↔
        Int.fmod (i : Int) a.log_interval = 0)) := by
  constructor
  · intro htb
    constructor
    · intro hmem
      rcases mem_scriptTrace a cuda f fuel _ hmem with hp | he | ⟨k, he⟩ | ⟨hn, -⟩ | ⟨m, hit⟩
      · have := phase_of_mem_preEvents a _ hp; simp [phase] at this
      · cases he
      · cases he
      · rw [htb] at hn; cases hn
      · rw [mem_iterEvents_iff] at hit
        rcases hit with hit | ⟨-, hit⟩ | ⟨-, -, hit | ⟨-, hit⟩⟩ |
            ⟨-, -, hit | hit | ⟨-, hit | hit⟩⟩ <;>
          cases hit
    · intro j hmem
      rcases mem_scriptTrace a cuda f fuel _ hmem with hp | he | ⟨k, he⟩ | ⟨-, he⟩ | ⟨m, hit⟩
      · have := phase_of_mem_preEvents a _ hp; simp [phase] at this
      · cases he
      · cases he
      · cases he
      · rw [mem_iterEvents_iff] at hit
        rcases hit with hit | ⟨-, hit⟩ | ⟨-, -, hit | ⟨hn, hit⟩⟩ |
            ⟨-, -, hit | hit | ⟨-, hit | hit⟩⟩ <;>
          first | (rw [htb] at hn; cases hn) | cases hit
  · intro htb hi
    rcases Decidable.em (a.log_interval = 0) with h0 | h0
    · rw [mem_iterEvents_iff]
      simp [h0, htb]
      omega
    · rw [mem_iterEvents_iff]
      simp [h0, htb]

/-- C10 witness: a concrete no-tensorboard run writes nothing. -/
theorem claim_C10_witness :
    ((Args.mk "a2c" "E" none 1 1 5 1 0 true).no_tb = true →
      Event.constructWriter ∉
        scriptTrace (Args.mk "a2c" "E" none 1 1 5 1 0 true) false (fun _ => 1) 5 ∧
      ∀ j, Event.writeScalars j ∉
        scriptTrace (Args.mk "a2c" "E" none 1 1 5 1 0 true) false (fun _ => 1) 5) ∧
    ((Args.mk "a2c" "E" none 1 1 5 1 0 true).no_tb = false → 1 ≤ 1 →
      (Event.writeScalars 1 ∈ iterEvents (Args.mk "a2c" "E" none 1 1 5 1 0 true) false 1 ↔
        Int.fmod ((1 : Nat) : Int) (Args.mk "a2c" "E" none 1 1 5 1 0 true).log_interval = 0)) :=
  claim_C10 (Args.mk "a2c" "E" none 1 1 5 1 0 true) false (fun _ => 1) 5 1

/-- Each iteration's event block contains exactly one `update` event. -/
theorem countP_update_iterEvents (a : Args) (cuda : Bool) (i : Nat) :
    (iterEvents a cuda i).countP isUpdate = 1 := by
  simp only [iterEvents, List.countP_append]
  split_ifs <;> simp [isUpdate, List.countP_cons, List.countP_nil]

/-- With every update returning at least one frame, `frames - num_frames`
more iterations of fuel suffice for the loop to push `num_frames` up to
`frames`. -/
theorem runLoop_reaches (a : Args) (cuda : Bool) (f : Nat → Int)
    (hf : ∀ j, 1 ≤ f j) (hlog : a.log_interval ≠ 0) :
    ∀ (fuel : Nat) (s : LoopState), a.frames - s.numFrames ≤ (fuel : Int) →
      a.frames ≤ (runLoop a cuda f fuel s).numFrames := by
  intro fuel
  induction fuel with
  | zero => intro s h; rw [runLoop]; omega
  | succ n ih =>
    intro s h
    rw [runLoop, if_neg hlog]
    split
    · apply ih
      have h1 := hf s.i
      simp only [loopStep]
      push_cast at h ⊢
      omega
    · omega

/-- C5 counterexample: with `--log-interval 0` and one-frame updates, the
run needs 2 frames but aborts with `ZeroDivisionError` after the first
update, with `num_frames = 1` still below `args.frames = 2`. -/
theorem claim_C5_counterexample :
    (Args.mk "a2c" "E" none 1 1 2 0 0 true).frames.toNat ≤ 5 ∧
    (runLoop (Args.mk "a2c" "E" none 1 1 2 0 0 true) false (fun _ => 1) 5
        initLoopState).i = 1 ∧
    Event.raiseZeroDivisionError ∈
      (runLoop (Args.mk "a2c" "E" none 1 1 2 0 0 true) false (fun _ => 1) 5
        initLoopState).trace ∧
    ¬ (Args.mk "a2c" "E" none 1 1 2 0 0 true).frames ≤
        (runLoop (Args.mk "a2c" "E" none 1 1 2 0 0 true) false (fun _ => 1) 5
          initLoopState).numFrames := by
  decide

/-- C5 (amended): the loop calls `update_parameters()` exactly once per
iteration and runs only while `num_frames < args.frames`; provided
`log_interval ≠ 0` (so line 134 does not raise `ZeroDivisionError`) and
every update returns at least one frame, a run with `frames.toNat` fuel
already ends with `num_frames ≥ args.frames`, i.e. the loop terminates
after finitely many updates. -/
theorem claim_C5 (a : Args) (cuda : Bool) (f : Nat → Int) (fuel : Nat) (s : LoopState)
    (hf : ∀ j, 1 ≤ f j) (hlog : a.log_interval ≠ 0) (hfuel : a.frames.toNat ≤ fuel) :
    ((iterEvents a cuda (s.i + 1)).countP isUpdate = 1) ∧
    (¬ s.numFrames < a.frames → runLoop a cuda f fuel s = s) ∧
    a.frames ≤ (runLoop a cuda f fuel initLoopState).numFrames := by
  refine ⟨countP_update_iterEvents a cuda (s.i + 1), ?_, ?_⟩
  · intro hstop
    cases fuel with
    | zero => rfl
    | succ n => rw [runLoop, if_neg hstop]
  · apply runLoop_reaches a cuda f hf hlog fuel initLoopState
    have h1 : a.frames ≤ (a.frames.toNat : Int) := Int.self_le_toNat a.frames
    have h2 : (a.frames.toNat : Int) ≤ (fuel : Int) := by exact_mod_cast hfuel
    simp only [initLoopState]
    omega

/-- C5 witness: a run needing 2 frames with one-frame updates reaches them. -/
theorem claim_C5_witness :
    (Args.mk "a2c" "E" none 1 1 2 1 0 true).log_interval ≠ 0 ∧
    (Args.mk "a2c" "E" none 1 1 2 1 0 true).frames.toNat ≤ 2 ∧
    (((iterEvents (Args.mk "a2c" "E" none 1 1 2 1 0 true) false
        (initLoopState.i + 1)).countP isUpdate = 1) ∧
      (¬ initLoopState.numFrames < (Args.mk "a2c" "E" none 1 1 2 1 0 true).frames →
        runLoop (Args.mk "a2c" "E" none 1 1 2 1 0 true) false (fun _ => 1) 2
            initLoopState = initLoopState) ∧
      (Args.mk "a2c" "E" none 1 1 2 1 0 true).frames ≤
        (runLoop (Args.mk "a2c" "E" none 1 1 2 1 0 true) false (fun _ => 1) 2
            initLoopState).numFrames) :=
  ⟨by decide, by decide,
    claim_C5 (Args.mk "a2c" "E" none 1 1 2 1 0 true) false (fun _ => 1) 2 initLoopState
      (fun _ => le_refl 1) (by decide) (by decide)⟩

/-- The guarded loop always equals some finite iterate of the loop body. -/
theorem runLoop_eq_iterate (a : Args) (cuda : Bool) (f : Nat → Int) :
    ∀ (fuel : Nat) (s : LoopState), ∃ m ≤ fuel,
      runLoop a cuda f fuel s = (loopStep a cuda f)^[m] s := by
  intro fuel
  induction fuel with
  | zero => intro s; exact ⟨0, Nat.le_refl 0, rfl⟩
  | succ n ih =>
    intro s
    rw [runLoop]
    split
    · split
      · exact ⟨1, Nat.le_add_left 1 n, rfl⟩
      · obtain ⟨m, hm, heq⟩ := ih (loopStep a cuda f s)
        exact ⟨m + 1, Nat.succ_le_succ hm, by rw [heq, Function.iterate_succ_apply]⟩
    · exact ⟨0, Nat.zero_le _, rfl⟩

/-- C7: after the k-th pass of the loop body the update counter `i` equals
`k` and `num_frames` equals the sum of the frame counts returned by the
first k updates (the j-th call, 1-indexed, returns `f (j-1)`); both counters
start at 0 and (with nonnegative frame counts) never decrease, and the
guarded loop only ever produces such iterates. -/
theorem claim_C7 (a : Args) (cuda : Bool) (f : Nat → Int) (k fuel : Nat)
    (s : LoopState) (hf : ∀ j, 0 ≤ f j) :
    ((loopStep a cuda f)^[k] initLoopState).i = k ∧
    ((loopStep a cuda f)^[k] initLoopState).numFrames =
      ∑ j ∈ Finset.range k, f j ∧
    ((loopStep a cuda f)^[k] initLoopState).numFrames ≤
      ((loopStep a cuda f)^[k + 1] initLoopState).numFrames ∧
    ((loopStep a cuda f)^[k] initLoopState).i ≤
      ((loopStep a cuda f)^[k + 1] initLoopState).i ∧
    ∃ m ≤ fuel, runLoop a cuda f fuel s = (loopStep a cuda f)^[m] s := by
  have hik : ∀ n : Nat, ((loopStep a cuda f)^[n] initLoopState).i = n := by
    intro n
    induction n with
    | zero => rfl
    | succ m ih => rw [Function.iterate_succ_apply']; simp [loopStep, ih]
  have hnf : ∀ n : Nat, ((loopStep a cuda f)^[n] initLoopState).numFrames =
      ∑ j ∈ Finset.range n, f j := by
    intro n
    induction n with
    | zero => simp [initLoopState]
    | succ m ih =>
      rw [Function.iterate_succ_apply']
      simp [loopStep, ih, hik m, Finset.sum_range_succ]
  refine ⟨hik k, hnf k, ?_, ?_, runLoop_eq_iterate a cuda f fuel s⟩
  · rw [hnf k, hnf (k + 1), Finset.sum_range_succ]
    exact le_add_of_nonneg_right (hf k)
  · rw [hik k, hik (k + 1)]
    exact Nat.le_succ k

/-- C7 witness at two iterations of one-frame updates. -/
theorem claim_C7_witness :
    ((loopStep (Args.mk "a2c" "E" none 1 1 2 1 0 true) false (fun _ => 1))^[2]
        initLoopState).i = 2 ∧
    ((loopStep (Args.mk "a2c" "E" none 1 1 2 1 0 true) false (fun _ => 1))^[2]
        initLoopState).numFrames = ∑ j ∈ Finset.range 2, (fun _ : Nat => (1 : Int)) j ∧
    ((loopStep (Args.mk "a2c" "E" none 1 1 2 1 0 true) false (fun _ => 1))^[2]
        initLoopState).numFrames ≤
      ((loopStep (Args.mk "a2c" "E" none 1 1 2 1 0 true) false (fun _ => 1))^[2 + 1]
        initLoopState).numFrames ∧
    ((loopStep (Args.mk "a2c" "E" none 1 1 2 1 0 true) false (fun _ => 1))^[2]
        initLoopState).i ≤
      ((loopStep (Args.mk "a2c" "E" none 1 1 2 1 0 true) false (fun _ => 1))^[2 + 1]
        initLoopState).i ∧
    ∃ m ≤ 3, runLoop (Args.mk "a2c" "E" none 1 1 2 1 0 true) false (fun _ => 1) 3
        initLoopState =
      (loopStep (Args.mk "a2c" "E" none 1 1 2 1 0 true) false (fun _ => 1))^[m]
        initLoopState :=
  claim_C7 (Args.mk "a2c" "E" none 1 1 2 1 0 true) false (fun _ => 1) 2 3 initLoopState
    (fun _ => zero_le_one)

/-- The only event the writer guard can emit is the writer construction. -/
theorem mem_writerEvents (a : Args) (e : Event) (h : e ∈ writerEvents a) :
    e = Event.constructWriter := by
  rw [writerEvents] at h
  split at h
  · cases h
  · rwa [List.mem_singleton] at h

/-- Every event the loop's trace holds has pipeline phase 6. -/
theorem phase_of_mem_loopTrace (a : Args) (cuda : Bool) (f : Nat → Int)
    (fuel : Nat) (e : Event)
    (h : e ∈ (runLoop a cuda f fuel initLoopState).trace) : phase e = 6 := by
  rcases mem_runLoop_trace a cuda f fuel initLoopState e h with h' | ⟨i, h'⟩
  · simp [initLoopState] at h'
  · exact phase_of_mem_iterEvents a cuda i e h'

/-- The pre-loop sequence respects the pipeline order. -/
theorem pairwise_preEvents (a : Args) :
    (preEvents a).Pairwise (fun x y => phase x ≤ phase y) := by
  rw [preEvents]
  refine List.Pairwise.cons ?_ ?_
  · intro y hy
    simp [phase]
  · simp only [List.append_eq]
    rw [List.pairwise_append]
    refine ⟨?_, ?_, ?_⟩
    · refine List.pairwise_of_forall_mem_list ?_
      intro x hx y hy
      simp only [envEvents, List.mem_map] at hx hy
      obtain ⟨i, -, rfl⟩ := hx
      obtain ⟨j, -, rfl⟩ := hy
      exact Nat.le_refl 1
    · split
      · simp
      · decide
    · intro x hx y hy
      simp only [envEvents, List.mem_map] at hx
      obtain ⟨i, -, rfl⟩ := hx
      split at hy
      · rcases List.mem_singleton.mp hy with rfl
        simp [phase]
      · rcases List.mem_cons.mp hy with rfl | hy
        · simp [phase]
        · rcases List.mem_cons.mp hy with rfl | hy
          · simp [phase]
          · cases hy

/-- Every event after the model has been built has pipeline phase ≥ 4. -/
theorem phase_of_mem_tailEvents (a : Args) (cuda : Bool) (f : Nat → Int)
    (fuel : Nat) (e : Event) (h : e ∈ tailEvents a cuda f fuel) :
    4 ≤ phase e := by
  rw [tailEvents] at h
  cases hsel : selectAlgo a.algo with
  | error u =>
      rw [hsel] at h
      rcases List.mem_singleton.mp h with rfl
      exact Nat.le_refl 4
  | ok k =>
      rw [hsel] at h
      rcases List.mem_cons.mp h with rfl | h
      · exact Nat.le_refl 4
      · rcases List.mem_append.mp h with h | h
        · rw [mem_writerEvents a e h]
          simp [phase]
        · rw [phase_of_mem_loopTrace a cuda f fuel e h]
          simp

/-- The tail of the script respects the pipeline order. -/
theorem pairwise_tailEvents (a : Args) (cuda : Bool) (f : Nat → Int) (fuel : Nat) :
    (tailEvents a cuda f fuel).Pairwise (fun x y => phase x ≤ phase y) := by
  rw [tailEvents]
  cases hsel : selectAlgo a.algo with
  | error u => simp
  | ok k =>
      refine List.Pairwise.cons ?_ ?_
      · intro y hy
        rcases List.mem_append.mp hy with hy | hy
        · rw [mem_writerEvents a y hy]
          cases k <;> simp [phase]
        · rw [phase_of_mem_loopTrace a cuda f fuel y hy]
          cases k <;> simp [phase]
      · rw [List.pairwise_append]
        refine ⟨?_, ?_, ?_⟩
        · rw [writerEvents]
          split <;> simp
        · refine List.pairwise_of_forall_mem_list ?_
          intro x hx y hy
          rw [phase_of_mem_loopTrace a cuda f fuel x hx,
            phase_of_mem_loopTrace a cuda f fuel y hy]
        · intro x hx y hy
          rw [mem_writerEvents a x hx, phase_of_mem_loopTrace a cuda f fuel y hy]
          simp [phase]

/-- C6: the script's observable steps happen in exactly the pipeline order
parse args → seed RNG → build the environments → build the preprocessor →
build/load the model → build the algorithm object (or raise ValueError) →
construct the writer → run the update/log/checkpoint loop: the trace starts
with the RNG seeding (so `utils.seed(args.seed)` runs before any environment
is created) and the phases of its events are monotone along the trace. -/
theorem claim_C6 (a : Args) (cuda : Bool) (f : Nat → Int) (fuel : Nat) :
    (scriptTrace a cuda f fuel).head? = some (Event.seedRNG a.seed) ∧
    (scriptTrace a cuda f fuel).Pairwise (fun x y => phase x ≤ phase y) := by
  constructor
  · rw [scriptTrace, preEvents]
    rfl
  · rw [scriptTrace, List.pairwise_append]
    refine ⟨pairwise_preEvents a, ?_, ?_⟩
    · split
      · exact List.Pairwise.nil
      · exact pairwise_tailEvents a cuda f fuel
    · intro x hx y hy
      split at hy
      · cases hy
      · exact le_trans (phase_of_mem_preEvents a x hx)
          (le_trans (by norm_num) (phase_of_mem_tailEvents a cuda f fuel y hy))

end TrainScript
